import Mathlib

/-!
Verification of the mowi-azfunc HTTP function app.

The development shallowly embeds the two Python modules
(`function_app.py` and `mowi_finance/__init__.py`):

* `PyVal` is the universe of runtime values that can appear in payloads:
  JSON primitives, `datetime.date` / `datetime.datetime` values (carried
  as their `isoformat()` string), lists, string-keyed dicts, and opaque
  non-serializable objects.
* `DataFrame` models a pandas DataFrame as a row index (name and values)
  together with labelled columns; `df_to_records` mirrors
  `function_app.df_to_records` (reset_index, rename of date-like column
  labels to ISO strings, `to_dict(orient="records")`), including the
  `reset_index` ValueError when the promoted index name already exists
  as a column label.
* `dumps` models `json.dumps(-, cls=DateTimeEncoder)` down to the JSON
  tree that would be printed: date/datetime values are substituted by
  their ISO strings, opaque objects raise a TypeError.
* `Provider` is the oracle for the five `mowi_finance` fetchers (each
  either returns data or raises an exception), and the six handler
  functions mirror the try/except control flow of `function_app.py`.
-/

/-- Python exceptions as seen by the handlers: `except ValueError` is a
distinct clause from `except Exception` in `GetMowiHistory`, so the
exception class matters. -/
inductive PyExc where
  | valueError (msg : String)
  | otherError (msg : String)
deriving DecidableEq, Repr

/-- `str(e)`: the message carried by an exception. -/
def PyExc.message : PyExc → String
  | .valueError m => m
  | .otherError m => m

/-- Runtime values of the Python payloads.  A `datetime.date` or
`datetime.datetime` is carried as its `isoformat()` rendering; `vObj`
is any other object that `json` cannot serialize (its `tag` is the
type name used in the TypeError message). -/
inductive PyVal where
  | vNone
  | vBool (b : Bool)
  | vInt (n : Int)
  | vStr (s : String)
  | vDate (iso : String)
  | vDatetime (iso : String)
  | vList (xs : List PyVal)
  | vDict (kvs : List (String × PyVal))
  | vObj (tag : String)

/-- A pandas column label (or index name): either a date-like value
(`pd.Timestamp`, `datetime.datetime`, `datetime.date`; carried as its
`isoformat()` string) or any other label carried as its `str()`
rendering. -/
inductive Label where
  | date (iso : String)
  | other (s : String)
deriving DecidableEq, Repr

/-- The rename step of `df_to_records`: date-like labels go to
`col.isoformat()`, all others to `str(col)`. -/
def renderLabel : Label → String
  | .date iso => iso
  | .other s => s

/-- A pandas DataFrame: an optionally named row index with its values,
and labelled columns stored column-major. -/
structure DataFrame where
  indexName : Option Label
  indexVals : List PyVal
  cols : List (Label × List PyVal)

/-- The label `reset_index` gives the promoted index column: the index
name, or `"index"` when the index is unnamed. -/
def promotedLabel (df : DataFrame) : Label :=
  df.indexName.getD (Label.other "index")

/-- Python dict insertion `d[k] = v`: an existing key keeps its
position and gets the new value, a fresh key is appended. -/
def dictInsert (k : String) (v : PyVal) (d : List (String × PyVal)) :
    List (String × PyVal) :=
  if d.any (fun kv => kv.1 == k) then
    d.map (fun kv => if kv.1 == k then (k, v) else kv)
  else
    d ++ [(k, v)]

/-- Build a Python dict from a list of key/value pairs in insertion
order (duplicate keys: last write wins, first position kept). -/
def mkDict (kvs : List (String × PyVal)) : List (String × PyVal) :=
  kvs.foldl (fun d kv => dictInsert kv.1 kv.2 d) []

/-- The record `to_dict(orient="records")` emits for row `i`, given the
renamed columns: one dict entry per column, in column order. -/
def rowRecord (cols : List (String × List PyVal)) (i : Nat) :
    List (String × PyVal) :=
  mkDict (cols.map (fun c => (c.1, c.2.getD i PyVal.vNone)))

/-- `function_app.df_to_records`: reset the index (pandas raises
ValueError when the promoted name already exists among the column
labels), rename date-like column labels to ISO strings and all others
to their `str()` form, then emit one dict per row in row order. -/
def df_to_records (df : DataFrame) :
    Except PyExc (List (List (String × PyVal))) :=
  let idxLabel := promotedLabel df
  if df.cols.any (fun c => c.1 == idxLabel) then
    .error (.valueError ("cannot insert " ++ renderLabel idxLabel ++
      ", already exists"))
  else
    let cols := ((idxLabel, df.indexVals) :: df.cols).map
      (fun c => (renderLabel c.1, c.2))
    .ok ((List.range df.indexVals.length).map (fun i => rowRecord cols i))

mutual

/-- `json.dumps(-, cls=DateTimeEncoder)`, modelled down to the JSON tree
that would be printed: primitives pass through, date and datetime values
are substituted by their `isoformat()` string (the `DateTimeEncoder.default`
hook), containers recurse, and any other object raises TypeError. -/
def dumps : PyVal → Except PyExc PyVal
  | .vNone => .ok .vNone
  | .vBool b => .ok (.vBool b)
  | .vInt n => .ok (.vInt n)
  | .vStr s => .ok (.vStr s)
  | .vDate iso => .ok (.vStr iso)
  | .vDatetime iso => .ok (.vStr iso)
  | .vList xs => (dumpsList xs).map PyVal.vList
  | .vDict kvs => (dumpsDict kvs).map PyVal.vDict
  | .vObj tag =>
      .error (.otherError
        ("Object of type " ++ tag ++ " is not JSON serializable"))

/-- Serialize the elements of a JSON array in order. -/
def dumpsList : List PyVal → Except PyExc (List PyVal)
  | [] => .ok []
  | x :: xs => do
      let y ← dumps x
      let ys ← dumpsList xs
      .ok (y :: ys)

/-- Serialize the entries of a JSON object in order. -/
def dumpsDict : List (String × PyVal) → Except PyExc (List (String × PyVal))
  | [] => .ok []
  | kv :: kvs => do
      let v ← dumps kv.2
      let vs ← dumpsDict kvs
      .ok ((kv.1, v) :: vs)

end

mutual

/-- Does a raw date or datetime value occur anywhere in the structure? -/
def hasDate : PyVal → Bool
  | .vDate _ => true
  | .vDatetime _ => true
  | .vList xs => hasDateList xs
  | .vDict kvs => hasDateDict kvs
  | _ => false

def hasDateList : List PyVal → Bool
  | [] => false
  | x :: xs => hasDate x || hasDateList xs

def hasDateDict : List (String × PyVal) → Bool
  | [] => false
  | kv :: kvs => hasDate kv.2 || hasDateDict kvs

end

mutual

/-- Does the structure contain a value that is neither a JSON primitive,
nor a mapping, nor a sequence, nor a date/datetime? -/
def containsBad : PyVal → Bool
  | .vObj _ => true
  | .vList xs => containsBadList xs
  | .vDict kvs => containsBadDict kvs
  | _ => false

def containsBadList : List PyVal → Bool
  | [] => false
  | x :: xs => containsBad x || containsBadList xs

def containsBadDict : List (String × PyVal) → Bool
  | [] => false
  | kv :: kvs => containsBad kv.2 || containsBadDict kvs

end

/-- Strip leading and trailing whitespace, as `int()` tolerates. -/
def stripWs (cs : List Char) : List Char :=
  ((cs.dropWhile Char.isWhitespace).reverse.dropWhile Char.isWhitespace).reverse

/-- Python `int(s)` on a string: optional surrounding whitespace, an
optional sign, then at least one decimal digit; anything else raises
ValueError. Returns `none` exactly when `int` raises. -/
def pyInt (s : String) : Option Int :=
  let cs := stripWs s.data
  match cs with
  | [] => none
  | c :: rest =>
      if c == '+' then
        if rest ≠ [] ∧ rest.all Char.isDigit then
          some (rest.foldl (fun a d => a * 10 + Int.ofNat (d.toNat - 48)) (0 : Int))
        else none
      else if c == '-' then
        if rest ≠ [] ∧ rest.all Char.isDigit then
          some (-(rest.foldl (fun a d => a * 10 + Int.ofNat (d.toNat - 48)) (0 : Int)))
        else none
      else
        if cs.all Char.isDigit then
          some (cs.foldl (fun a d => a * 10 + Int.ofNat (d.toNat - 48)) (0 : Int))
        else none

/-- `req.params.get(k)`: the first query parameter with the given name,
if any. -/
def paramsGet (params : List (String × String)) (k : String) :
    Option String :=
  (params.find? (fun kv => kv.1 == k)).map (fun kv => kv.2)

/-- The date range `mowi_finance.get_mowi_history` queries: dates are
modelled as integers (ordinal days), `today` is the value of
`datetime.date.today()`, and `end - datetime.timedelta(days=days)` is
integer subtraction. -/
structure HistoryQuery where
  start : Int
  stop : Int
  interval : String
deriving DecidableEq, Repr

/-- `mowi_finance.get_mowi_history(days=30, interval="1d")`: the query it
issues, with `end = today` and `start = end - timedelta(days=days)`. -/
def get_mowi_history (today : Int) (days : Int := 30)
    (interval : String := "1d") : HistoryQuery :=
  { start := today - days, stop := today, interval := interval }

/-- The oracle for the five `mowi_finance` fetchers: each provider call
either returns its data or raises an exception.  `history` is a function
of the `days` argument the handler passes to `get_mowi_history`. -/
structure Provider where
  quote : Except PyExc PyVal
  history : Int → Except PyExc DataFrame
  actions : Except PyExc DataFrame
  financials : Except PyExc (List (String × DataFrame))
  recommendations : Except PyExc DataFrame

/-- An HTTP response as built by `func.HttpResponse`: status code, the
JSON tree of the body, and the mimetype. -/
structure HttpResponse where
  status : Nat
  body : PyVal
  mimetype : String

/-- A list of records as a Python value (list of dicts). -/
def recordsVal (recs : List (List (String × PyVal))) : PyVal :=
  PyVal.vList (recs.map PyVal.vDict)

/-- The error envelope `json.dumps({"error": msg})` of the except
clauses. -/
def errBody (msg : String) : PyVal :=
  PyVal.vDict [("error", PyVal.vStr msg)]

/-- A 500 response with the error envelope. -/
def err500 (msg : String) : HttpResponse :=
  { status := 500, body := errBody msg, mimetype := "application/json" }

/-- A 200 response with the given serialized body. -/
def ok200 (body : PyVal) : HttpResponse :=
  { status := 200, body := body, mimetype := "application/json" }

/-- The 400 response `GetMowiHistory` returns from its
`except ValueError` clause. -/
def badRequestDays : HttpResponse :=
  { status := 400,
    body := errBody "Parameter 'days' must be an integer.",
    mimetype := "application/json" }

/-- `days = int(days_param) if days_param else 30` inside a
`try/except ValueError: days = 30` — the lenient policy of
`GetMowiData`: absent, empty, or unparseable input falls back to 30. -/
def dataDays (params : List (String × String)) : Int :=
  match paramsGet params "days" with
  | none => 30
  | some s => if s == "" then 30 else (pyInt s).getD 30

/-- `days = int(req.params.get("days", 30))` — the strict policy of
`GetMowiHistory`: an absent parameter means `int(30) = 30`, a present
but unparseable one raises ValueError. -/
def daysParse (params : List (String × String)) : Except PyExc Int :=
  match paramsGet params "days" with
  | none => .ok 30
  | some s =>
      match pyInt s with
      | some d => .ok d
      | none => .error (.valueError
          ("invalid literal for int() with base 10: " ++ s))

/-- The dict comprehension over the financial statements:
`df_to_records` applied to each statement DataFrame in order, the first
exception propagating. -/
def financialsRecords : List (String × DataFrame) →
    Except PyExc (List (String × PyVal))
  | [] => .ok []
  | sd :: l => do
      let r ← df_to_records sd.2
      let rest ← financialsRecords l
      .ok ((sd.1, recordsVal r) :: rest)

/-- The payload `GetMowiData` assembles and serializes inside its `try`
block, given the parsed `days`: the five provider calls in program
order, each DataFrame through `df_to_records`, then
`json.dumps(-, cls=DateTimeEncoder)`. -/
def dataPayload (p : Provider) (days : Int) : Except PyExc PyVal := do
  let quote ← p.quote
  let hist ← p.history days
  let acts ← p.actions
  let fins ← p.financials
  let recs ← p.recommendations
  let histRecs ← df_to_records hist
  let actRecs ← df_to_records acts
  let finRecs ← financialsRecords fins
  let recRecs ← df_to_records recs
  dumps (PyVal.vDict
    [("quote", quote),
     ("history", recordsVal histRecs),
     ("actions", recordsVal actRecs),
     ("financials", PyVal.vDict finRecs),
     ("recommendations", recordsVal recRecs)])

/-- The `GetMowiData` handler: lenient `days` parsing, then the whole
fetch/normalize/serialize pipeline; any exception becomes a 500 with the
error envelope. -/
def GetMowiData (p : Provider) (params : List (String × String)) :
    HttpResponse :=
  match dataPayload p (dataDays params) with
  | .ok body => ok200 body
  | .error e => err500 e.message

/-- The `GetMowiQuote` handler. -/
def GetMowiQuote (p : Provider) : HttpResponse :=
  match (do dumps (← p.quote) : Except PyExc PyVal) with
  | .ok body => ok200 body
  | .error e => err500 e.message

/-- The body of `GetMowiHistory` after `days` has parsed: fetch, convert
and serialize; a ValueError raised inside the `try` block is caught by
the `except ValueError` clause (400 with the days message), any other
exception by `except Exception` (500 with the envelope). -/
def historyStage (p : Provider) (days : Int) : HttpResponse :=
  match (do
      let df ← p.history days
      let recs ← df_to_records df
      dumps (recordsVal recs) : Except PyExc PyVal) with
  | .ok body => ok200 body
  | .error (.valueError _) => badRequestDays
  | .error (.otherError m) => err500 m

/-- The `GetMowiHistory` handler: `int(req.params.get("days", 30))`
raising ValueError is caught by `except ValueError` giving 400,
otherwise the fetch pipeline runs. -/
def GetMowiHistory (p : Provider) (params : List (String × String)) :
    HttpResponse :=
  match daysParse params with
  | .ok d => historyStage p d
  | .error _ => badRequestDays

/-- The `GetMowiActions` handler. -/
def GetMowiActions (p : Provider) : HttpResponse :=
  match (do
      let df ← p.actions
      let recs ← df_to_records df
      dumps (recordsVal recs) : Except PyExc PyVal) with
  | .ok body => ok200 body
  | .error e => err500 e.message

/-- The `GetMowiFinancials` handler. -/
def GetMowiFinancials (p : Provider) : HttpResponse :=
  match (do
      let fins ← p.financials
      let finRecs ← financialsRecords fins
      dumps (PyVal.vDict finRecs) : Except PyExc PyVal) with
  | .ok body => ok200 body
  | .error e => err500 e.message

/-- The `GetMowiRecommendations` handler. -/
def GetMowiRecommendations (p : Provider) : HttpResponse :=
  match (do
      let df ← p.recommendations
      let recs ← df_to_records df
      dumps (recordsVal recs) : Except PyExc PyVal) with
  | .ok body => ok200 body
  | .error e => err500 e.message

/-- A well-formed tabular result: every column has as many entries as
the row index, and the promoted index name does not already occur among
the column labels (pandas `reset_index` would raise otherwise). -/
def wellFormed (df : DataFrame) : Bool :=
  df.cols.all (fun c => c.2.length == df.indexVals.length) &&
  !(df.cols.any (fun c => c.1 == promotedLabel df))

/-- No data-column label renders to the same string as the promoted
index label; without this, `to_dict` overwrites the index field
(last-write-wins). -/
def noRenderCollision (df : DataFrame) : Bool :=
  df.cols.all (fun c => !(renderLabel c.1 == renderLabel (promotedLabel df)))

/-- A provider DataFrame satisfying the upstream contract: no label
collision with the promoted index, and only serializable values. -/
def dfOk (df : DataFrame) : Bool :=
  !(df.cols.any (fun c => c.1 == promotedLabel df)) &&
  !containsBadList df.indexVals &&
  df.cols.all (fun c => !containsBadList c.2)

/-- The renamed columns after `reset_index`: the promoted index column
first, then the data columns, all labels rendered. -/
def promotedCols (df : DataFrame) : List (String × List PyVal) :=
  ((promotedLabel df, df.indexVals) :: df.cols).map
    (fun c => (renderLabel c.1, c.2))

/-- The string-rendered column labels of the records: the promoted index
field followed by the rendered data-column labels. -/
def renderedLabels (df : DataFrame) : List String :=
  (promotedCols df).map Prod.fst

/-- Drop the first row of every column. -/
def colsTail (cols : List (String × List PyVal)) :
    List (String × List PyVal) :=
  cols.map (fun c => (c.1, c.2.tail))

/-- Row-major reference construction of the records: peel off one row
at a time, in order. -/
def rowsToRecords : Nat → List (String × List PyVal) →
    List (List (String × PyVal))
  | 0, _ => []
  | Nat.succ n, cols =>
      mkDict (cols.map (fun c => (c.1, c.2.headD PyVal.vNone))) ::
        rowsToRecords n (colsTail cols)

/-- Key lookup in a record. -/
def recordLookup (d : List (String × PyVal)) (k : String) : Option PyVal :=
  (d.find? (fun kv => kv.1 == k)).map (fun kv => kv.2)

/-- A history-like DataFrame: a named datetime index, an ordinary
column, and a date-valued column label. -/
def exampleDf : DataFrame :=
  { indexName := some (Label.other "Date"),
    indexVals := [PyVal.vDatetime "2020-01-01T00:00:00",
                  PyVal.vDatetime "2020-01-02T00:00:00"],
    cols := [(Label.other "Open", [PyVal.vInt 10, PyVal.vInt 11]),
             (Label.date "2021-05-05", [PyVal.vInt 1, PyVal.vInt 2])] }

/-- The records `df_to_records` produces for `exampleDf`. -/
def exampleRecs : List (List (String × PyVal)) :=
  [[("Date", PyVal.vDatetime "2020-01-01T00:00:00"),
    ("Open", PyVal.vInt 10), ("2021-05-05", PyVal.vInt 1)],
   [("Date", PyVal.vDatetime "2020-01-02T00:00:00"),
    ("Open", PyVal.vInt 11), ("2021-05-05", PyVal.vInt 2)]]

/-- The JSON tree `dumps` produces for `exampleRecs`. -/
def exampleOut : PyVal :=
  PyVal.vList
    [PyVal.vDict [("Date", PyVal.vStr "2020-01-01T00:00:00"),
       ("Open", PyVal.vInt 10), ("2021-05-05", PyVal.vInt 1)],
     PyVal.vDict [("Date", PyVal.vStr "2020-01-02T00:00:00"),
       ("Open", PyVal.vInt 11), ("2021-05-05", PyVal.vInt 2)]]

/-- A DataFrame whose index name renders to the same string as a
date-valued column label: the index is named by the plain string
"2020-01-01" while a column is labelled by the date 2020-01-01 (whose
`isoformat()` is that same string). `reset_index` does not collide
(the labels differ as objects), but after the rename both columns are
called "2020-01-01" and `to_dict` lets the data column win. -/
def exampleCollisionDf : DataFrame :=
  { indexName := some (Label.other "2020-01-01"),
    indexVals := [PyVal.vStr "row0"],
    cols := [(Label.date "2020-01-01", [PyVal.vInt 99])] }

/-- An empty DataFrame. -/
def exampleEmptyDf : DataFrame :=
  { indexName := none, indexVals := [], cols := [] }

/-- A quote dict as `get_mowi_data` returns. -/
def exampleQuote : PyVal :=
  PyVal.vDict [("symbol", PyVal.vStr "MOWI.OL"),
    ("last_price", PyVal.vInt 200), ("currency", PyVal.vStr "NOK")]

/-- A provider whose five calls all succeed. -/
def exampleProviderOk : Provider :=
  { quote := .ok exampleQuote,
    history := fun _ => .ok exampleDf,
    actions := .ok exampleEmptyDf,
    financials := .ok [("income_statement", exampleEmptyDf)],
    recommendations := .ok exampleEmptyDf }

/-- A provider whose quote call raises a generic exception. -/
def exampleProviderQuoteErr : Provider :=
  { exampleProviderOk with quote := .error (.otherError "boom") }

/-- A provider whose history call raises a `ValueError`. -/
def exampleProviderHistErr : Provider :=
  { exampleProviderOk with
      history := fun _ => .error (.valueError "boom") }

/-- A provider whose actions call raises a generic exception. -/
def exampleProviderActErr : Provider :=
  { exampleProviderOk with actions := .error (.otherError "down") }

theorem getD_zero_eq_headD (l : List PyVal) (d : PyVal) :
    l.getD 0 d = l.headD d := by
  cases l <;> rfl

theorem getD_succ_eq_tail (l : List PyVal) (i : Nat) (d : PyVal) :
    l.getD (i + 1) d = l.tail.getD i d := by
  cases l <;> rfl

theorem rowRecord_zero (cols : List (String × List PyVal)) :
    rowRecord cols 0 =
      mkDict (cols.map (fun c => (c.1, c.2.headD PyVal.vNone))) := by
  unfold rowRecord
  congr 1
  apply List.map_congr_left
  intro c _
  rw [getD_zero_eq_headD]

theorem rowRecord_succ (cols : List (String × List PyVal)) (i : Nat) :
    rowRecord cols (i + 1) = rowRecord (colsTail cols) i := by
  unfold rowRecord colsTail
  rw [List.map_map]
  congr 1
  apply List.map_congr_left
  intro c _
  simp [getD_succ_eq_tail]

theorem range_map_rowRecord (n : Nat) (cols : List (String × List PyVal)) :
    (List.range n).map (fun i => rowRecord cols i) = rowsToRecords n cols := by
  induction n generalizing cols with
  | zero => simp [rowsToRecords]
  | succ n ih =>
      rw [List.range_succ_eq_map, List.map_cons, List.map_map, rowsToRecords,
        ← rowRecord_zero]
      congr 1
      rw [← ih (colsTail cols)]
      congr 1
      funext i
      simp [Function.comp, rowRecord_succ]

theorem keys_dictInsert (k : String) (v : PyVal)
    (d : List (String × PyVal)) (x : String) :
    x ∈ (dictInsert k v d).map Prod.fst ↔ x = k ∨ x ∈ d.map Prod.fst := by
  unfold dictInsert
  split
  case isTrue h =>
    obtain ⟨kv, hmem, hbeq⟩ := List.any_eq_true.mp h
    have hkk : kv.1 = k := by simpa using hbeq
    have hkmem : k ∈ d.map Prod.fst := by
      rw [← hkk]; exact List.mem_map_of_mem Prod.fst hmem
    have hsame : (d.map (fun kv => if kv.1 == k then (k, v) else kv)).map
        Prod.fst = d.map Prod.fst := by
      rw [List.map_map]
      apply List.map_congr_left
      intro a _
      by_cases hax : a.1 = k
      · simp [hax]
      · simp [hax]
    rw [hsame]
    constructor
    · intro hx; exact Or.inr hx
    · intro hx
      cases hx with
      | inl he => rw [he]; exact hkmem
      | inr hx => exact hx
  case isFalse h =>
    rw [List.map_append]
    simp [or_comm]

theorem keys_foldl_dictInsert (kvs : List (String × PyVal))
    (acc : List (String × PyVal)) (x : String) :
    x ∈ ((kvs.foldl (fun d kv => dictInsert kv.1 kv.2 d) acc).map Prod.fst) ↔
      x ∈ acc.map Prod.fst ∨ x ∈ kvs.map Prod.fst := by
  induction kvs generalizing acc with
  | nil => simp
  | cons kv kvs ih =>
      rw [List.foldl_cons, ih, keys_dictInsert]
      simp
      tauto

theorem keys_mkDict (kvs : List (String × PyVal)) (x : String) :
    x ∈ (mkDict kvs).map Prod.fst ↔ x ∈ kvs.map Prod.fst := by
  unfold mkDict
  rw [keys_foldl_dictInsert]
  simp

theorem keys_rowRecord (cols : List (String × List PyVal)) (i : Nat)
    (x : String) :
    x ∈ (rowRecord cols i).map Prod.fst ↔ x ∈ cols.map Prod.fst := by
  unfold rowRecord
  rw [keys_mkDict, List.map_map]
  have : (Prod.fst ∘ fun c : String × List PyVal =>
      (c.1, c.2.getD i PyVal.vNone)) = Prod.fst := by
    funext c; rfl
  rw [this]

theorem dictInsert_cons_shape (k2 : String) (v2 : PyVal) (k : String)
    (v : PyVal) (d : List (String × PyVal)) :
    ∃ v1 d1, dictInsert k2 v2 ((k, v) :: d) = (k, v1) :: d1 ∧
      (k ≠ k2 → v1 = v) := by
  unfold dictInsert
  split
  case isTrue h =>
    rw [List.map_cons]
    by_cases hk : k = k2
    · subst hk
      refine ⟨v2, d.map (fun kv => if kv.1 == k then (k, v2) else kv), ?_, ?_⟩
      · simp
      · intro hne; exact absurd rfl hne
    · refine ⟨v, d.map (fun kv => if kv.1 == k2 then (k2, v2) else kv), ?_, ?_⟩
      · simp [hk]
      · intro _; rfl
  case isFalse h =>
    exact ⟨v, d ++ [(k2, v2)], by simp, fun _ => rfl⟩

theorem foldl_dictInsert_head (kvs : List (String × PyVal)) (k : String)
    (v : PyVal) (d : List (String × PyVal)) :
    ∃ w rest,
      kvs.foldl (fun d kv => dictInsert kv.1 kv.2 d) ((k, v) :: d) =
        (k, w) :: rest ∧
      ((∀ kv ∈ kvs, kv.1 ≠ k) → w = v) := by
  induction kvs generalizing v d with
  | nil => exact ⟨v, d, rfl, fun _ => rfl⟩
  | cons kv kvs ih =>
      rw [List.foldl_cons]
      obtain ⟨v1, d1, hshape, hval⟩ := dictInsert_cons_shape kv.1 kv.2 k v d
      rw [hshape]
      obtain ⟨w, rest, hfold, hw⟩ := ih v1 d1
      refine ⟨w, rest, hfold, ?_⟩
      intro hall
      have h1 : kv.1 ≠ k := hall kv (List.mem_cons_self kv kvs)
      have h2 : ∀ kv2 ∈ kvs, kv2.1 ≠ k := fun kv2 hm =>
        hall kv2 (List.mem_cons_of_mem kv hm)
      rw [hw h2, hval (Ne.symm h1)]

theorem mkDict_cons_head (k : String) (v : PyVal)
    (kvs : List (String × PyVal)) :
    ∃ w rest, mkDict ((k, v) :: kvs) = (k, w) :: rest ∧
      ((∀ kv ∈ kvs, kv.1 ≠ k) → w = v) := by
  unfold mkDict
  rw [List.foldl_cons]
  exact foldl_dictInsert_head kvs k v []

mutual

theorem dumps_isOk : ∀ v : PyVal, (dumps v).isOk = !containsBad v
  | .vNone => rfl
  | .vBool _ => rfl
  | .vInt _ => rfl
  | .vStr _ => rfl
  | .vDate _ => rfl
  | .vDatetime _ => rfl
  | .vObj _ => rfl
  | .vList xs => by
      have h := dumpsList_isOk xs
      simp only [dumps, containsBad]
      cases hx : dumpsList xs with
      | ok ys => rw [hx] at h; simpa [Except.map, Except.isOk] using h
      | error e => rw [hx] at h; simpa [Except.map, Except.isOk] using h
  | .vDict kvs => by
      have h := dumpsDict_isOk kvs
      simp only [dumps, containsBad]
      cases hx : dumpsDict kvs with
      | ok ys => rw [hx] at h; simpa [Except.map, Except.isOk] using h
      | error e => rw [hx] at h; simpa [Except.map, Except.isOk] using h

theorem dumpsList_isOk : ∀ xs : List PyVal,
    (dumpsList xs).isOk = !containsBadList xs
  | [] => rfl
  | x :: xs => by
      have h1 := dumps_isOk x
      have h2 := dumpsList_isOk xs
      simp only [dumpsList, containsBadList]
      cases hx : dumps x with
      | error e =>
          rw [hx] at h1
          simp only [Except.isOk, Except.toBool] at h1
          simp [Bind.bind, Except.bind, Except.isOk, Except.toBool, ← h1]
      | ok y =>
          rw [hx] at h1
          simp only [Except.isOk, Except.toBool] at h1
          cases hxs : dumpsList xs with
          | error e =>
              rw [hxs] at h2
              simp only [Except.isOk, Except.toBool] at h2
              simp [Bind.bind, Except.bind, Except.isOk, Except.toBool, ← h1, ← h2]
          | ok ys =>
              rw [hxs] at h2
              simp only [Except.isOk, Except.toBool] at h2
              simp [Bind.bind, Except.bind, Except.isOk, Except.toBool, ← h1, ← h2]

theorem dumpsDict_isOk : ∀ kvs : List (String × PyVal),
    (dumpsDict kvs).isOk = !containsBadDict kvs
  | [] => rfl
  | kv :: kvs => by
      have h1 := dumps_isOk kv.2
      have h2 := dumpsDict_isOk kvs
      simp only [dumpsDict, containsBadDict]
      cases hx : dumps kv.2 with
      | error e =>
          rw [hx] at h1
          simp only [Except.isOk, Except.toBool] at h1
          simp [Bind.bind, Except.bind, Except.isOk, Except.toBool, ← h1]
      | ok y =>
          rw [hx] at h1
          simp only [Except.isOk, Except.toBool] at h1
          cases hxs : dumpsDict kvs with
          | error e =>
              rw [hxs] at h2
              simp only [Except.isOk, Except.toBool] at h2
              simp [Bind.bind, Except.bind, Except.isOk, Except.toBool, ← h1, ← h2]
          | ok ys =>
              rw [hxs] at h2
              simp only [Except.isOk, Except.toBool] at h2
              simp [Bind.bind, Except.bind, Except.isOk, Except.toBool, ← h1, ← h2]

end

mutual

theorem dumps_noDate : ∀ (v w : PyVal), dumps v = .ok w → hasDate w = false
  | .vNone, w, h => by cases h; rfl
  | .vBool _, w, h => by cases h; rfl
  | .vInt _, w, h => by cases h; rfl
  | .vStr _, w, h => by cases h; rfl
  | .vDate _, w, h => by cases h; rfl
  | .vDatetime _, w, h => by cases h; rfl
  | .vObj _, w, h => by cases h
  | .vList xs, w, h => by
      simp only [dumps] at h
      cases hx : dumpsList xs with
      | error e => rw [hx] at h; cases h
      | ok ys =>
          rw [hx] at h
          simp only [Except.map] at h
          cases h
          simpa [hasDate] using dumpsList_noDate xs ys hx
  | .vDict kvs, w, h => by
      simp only [dumps] at h
      cases hx : dumpsDict kvs with
      | error e => rw [hx] at h; cases h
      | ok ys =>
          rw [hx] at h
          simp only [Except.map] at h
          cases h
          simpa [hasDate] using dumpsDict_noDate kvs ys hx

theorem dumpsList_noDate : ∀ (xs ys : List PyVal),
    dumpsList xs = .ok ys → hasDateList ys = false
  | [], ys, h => by cases h; rfl
  | x :: xs, ys, h => by
      simp only [dumpsList] at h
      cases hx : dumps x with
      | error e => rw [hx] at h; simp [Bind.bind, Except.bind] at h
      | ok y =>
          rw [hx] at h
          cases hxs : dumpsList xs with
          | error e => rw [hxs] at h; simp [Bind.bind, Except.bind] at h
          | ok ys2 =>
              rw [hxs] at h
              simp only [Bind.bind, Except.bind] at h
              cases h
              simp only [hasDateList, Bool.or_eq_false_iff]
              exact ⟨dumps_noDate x y hx, dumpsList_noDate xs ys2 hxs⟩

theorem dumpsDict_noDate : ∀ (kvs out : List (String × PyVal)),
    dumpsDict kvs = .ok out → hasDateDict out = false
  | [], out, h => by cases h; rfl
  | kv :: kvs, out, h => by
      simp only [dumpsDict] at h
      cases hx : dumps kv.2 with
      | error e => rw [hx] at h; simp [Bind.bind, Except.bind] at h
      | ok y =>
          rw [hx] at h
          cases hxs : dumpsDict kvs with
          | error e => rw [hxs] at h; simp [Bind.bind, Except.bind] at h
          | ok ys2 =>
              rw [hxs] at h
              simp only [Bind.bind, Except.bind] at h
              cases h
              simp only [hasDateDict, Bool.or_eq_false_iff]
              exact ⟨dumps_noDate kv.2 y hx, dumpsDict_noDate kvs ys2 hxs⟩

end

theorem dumps_vList_inv (xs : List PyVal) (w : PyVal)
    (h : dumps (PyVal.vList xs) = .ok w) :
    ∃ ys, w = PyVal.vList ys ∧ dumpsList xs = .ok ys := by
  simp only [dumps] at h
  cases hx : dumpsList xs with
  | error e => rw [hx] at h; cases h
  | ok ys =>
      rw [hx] at h
      simp only [Except.map] at h
      cases h
      exact ⟨ys, rfl, rfl⟩

theorem dumps_vDict_inv (kvs : List (String × PyVal)) (w : PyVal)
    (h : dumps (PyVal.vDict kvs) = .ok w) :
    ∃ out, w = PyVal.vDict out ∧ dumpsDict kvs = .ok out := by
  simp only [dumps] at h
  cases hx : dumpsDict kvs with
  | error e => rw [hx] at h; cases h
  | ok out =>
      rw [hx] at h
      simp only [Except.map] at h
      cases h
      exact ⟨out, rfl, rfl⟩

theorem dumpsDict_keys : ∀ (kvs out : List (String × PyVal)),
    dumpsDict kvs = .ok out → out.map Prod.fst = kvs.map Prod.fst
  | [], out, h => by cases h; rfl
  | kv :: kvs, out, h => by
      simp only [dumpsDict] at h
      cases hx : dumps kv.2 with
      | error e => rw [hx] at h; simp [Bind.bind, Except.bind] at h
      | ok y =>
          rw [hx] at h
          cases hxs : dumpsDict kvs with
          | error e => rw [hxs] at h; simp [Bind.bind, Except.bind] at h
          | ok ys =>
              rw [hxs] at h
              simp only [Bind.bind, Except.bind] at h
              cases h
              simp only [List.map_cons]
              rw [dumpsDict_keys kvs ys hxs]

theorem dumpsList_records : ∀ (recs : List (List (String × PyVal)))
    (ys : List PyVal),
    dumpsList (recs.map PyVal.vDict) = .ok ys →
      ys.length = recs.length ∧
      ∀ y ∈ ys, ∃ kvs rec, rec ∈ recs ∧ y = PyVal.vDict kvs ∧
        kvs.map Prod.fst = rec.map Prod.fst
  | [], ys, h => by cases h; exact ⟨rfl, by intro y hy; cases hy⟩
  | rec :: recs, ys, h => by
      simp only [List.map_cons, dumpsList] at h
      cases hx : dumps (PyVal.vDict rec) with
      | error e => rw [hx] at h; simp [Bind.bind, Except.bind] at h
      | ok y =>
          rw [hx] at h
          cases hxs : dumpsList (recs.map PyVal.vDict) with
          | error e => rw [hxs] at h; simp [Bind.bind, Except.bind] at h
          | ok ys2 =>
              rw [hxs] at h
              simp only [Bind.bind, Except.bind] at h
              cases h
              obtain ⟨hlen, hmem⟩ := dumpsList_records recs ys2 hxs
              obtain ⟨out, hout, hdd⟩ := dumps_vDict_inv rec y hx
              refine ⟨by simp [hlen], ?_⟩
              intro z hz
              cases hz with
              | head =>
                  exact ⟨out, rec, List.mem_cons_self rec recs, hout,
                    dumpsDict_keys rec out hdd⟩
              | tail _ hz2 =>
                  obtain ⟨kvs2, rec2, hr2, hy2, hk2⟩ := hmem z hz2
                  exact ⟨kvs2, rec2, List.mem_cons_of_mem rec hr2, hy2, hk2⟩

theorem containsBadList_getD : ∀ (l : List PyVal) (i : Nat) (d : PyVal),
    containsBadList l = false → containsBad d = false →
      containsBad (l.getD i d) = false
  | [], i, d, _, hd => by cases i <;> exact hd
  | x :: l, 0, d, hl, _ => by
      simp only [containsBadList, Bool.or_eq_false_iff] at hl
      exact hl.1
  | x :: l, i + 1, d, hl, hd => by
      simp only [containsBadList, Bool.or_eq_false_iff] at hl
      exact containsBadList_getD l i d hl.2 hd

theorem containsBadDict_append (d1 d2 : List (String × PyVal)) :
    containsBadDict (d1 ++ d2) =
      (containsBadDict d1 || containsBadDict d2) := by
  induction d1 with
  | nil => simp [containsBadDict]
  | cons kv d1 ih => simp [containsBadDict, ih, Bool.or_assoc]

theorem containsBadDict_map_overwrite (k : String) (v : PyVal)
    (d : List (String × PyVal)) (hv : containsBad v = false)
    (hd : containsBadDict d = false) :
    containsBadDict
      (d.map (fun kv => if kv.1 == k then (k, v) else kv)) = false := by
  induction d with
  | nil => rfl
  | cons kv d ih =>
      simp only [containsBadDict, Bool.or_eq_false_iff] at hd
      simp only [List.map_cons, containsBadDict, Bool.or_eq_false_iff]
      refine ⟨?_, ih hd.2⟩
      by_cases hk : kv.1 == k
      · simp [hk, hv]
      · simp [hk]; exact hd.1

theorem containsBadDict_dictInsert (k : String) (v : PyVal)
    (d : List (String × PyVal)) (hv : containsBad v = false)
    (hd : containsBadDict d = false) :
    containsBadDict (dictInsert k v d) = false := by
  unfold dictInsert
  split
  · exact containsBadDict_map_overwrite k v d hv hd
  · rw [containsBadDict_append]
    simp [containsBadDict, hd, hv]

theorem containsBadDict_foldl :
    ∀ (kvs acc : List (String × PyVal)),
      (∀ kv ∈ kvs, containsBad kv.2 = false) →
      containsBadDict acc = false →
      containsBadDict
        (kvs.foldl (fun d kv => dictInsert kv.1 kv.2 d) acc) = false
  | [], acc, _, hacc => hacc
  | kv :: kvs, acc, hkvs, hacc => by
      rw [List.foldl_cons]
      exact containsBadDict_foldl kvs _
        (fun kv2 hm => hkvs kv2 (List.mem_cons_of_mem kv hm))
        (containsBadDict_dictInsert kv.1 kv.2 acc
          (hkvs kv (List.mem_cons_self kv kvs)) hacc)

theorem containsBad_rowRecord (cols : List (String × List PyVal)) (i : Nat)
    (h : ∀ c ∈ cols, containsBadList c.2 = false) :
    containsBadDict (rowRecord cols i) = false := by
  unfold rowRecord mkDict
  apply containsBadDict_foldl
  · intro kv hm
    obtain ⟨c, hc, he⟩ := List.mem_map.mp hm
    cases he
    exact containsBadList_getD c.2 i PyVal.vNone (h c hc) rfl
  · rfl

theorem containsBadList_of_forall (xs : List PyVal)
    (h : ∀ x ∈ xs, containsBad x = false) : containsBadList xs = false := by
  induction xs with
  | nil => rfl
  | cons x xs ih =>
      simp only [containsBadList, Bool.or_eq_false_iff]
      exact ⟨h x (List.mem_cons_self x xs),
        ih (fun y hy => h y (List.mem_cons_of_mem x hy))⟩

theorem dumps_ok_of_clean (v : PyVal) (h : containsBad v = false) :
    ∃ w, dumps v = .ok w := by
  have := dumps_isOk v
  rw [h] at this
  cases hd : dumps v with
  | ok w => exact ⟨w, rfl⟩
  | error e => rw [hd] at this; simp [Except.isOk, Except.toBool] at this

theorem df_to_records_of_no_collision (df : DataFrame)
    (h : df.cols.any (fun c => c.1 == promotedLabel df) = false) :
    df_to_records df = .ok
      ((List.range df.indexVals.length).map
        (fun i => rowRecord (promotedCols df) i)) := by
  unfold df_to_records promotedCols
  simp [h]

theorem dfOk_parts (df : DataFrame) (h : dfOk df = true) :
    df.cols.any (fun c => c.1 == promotedLabel df) = false ∧
    containsBadList df.indexVals = false ∧
    ∀ c ∈ df.cols, containsBadList c.2 = false := by
  unfold dfOk at h
  simp only [Bool.and_eq_true, Bool.not_eq_true', List.all_eq_true] at h
  exact ⟨h.1.1, h.1.2, fun c hc => by simpa using h.2 c hc⟩

theorem promotedCols_clean (df : DataFrame)
    (hidx : containsBadList df.indexVals = false)
    (hcols : ∀ c ∈ df.cols, containsBadList c.2 = false) :
    ∀ c ∈ promotedCols df, containsBadList c.2 = false := by
  intro c hc
  unfold promotedCols at hc
  obtain ⟨c0, hc0, he⟩ := List.mem_map.mp hc
  cases he
  cases hc0 with
  | head => exact hidx
  | tail _ hm => exact hcols c0 hm

theorem dfOk_records (df : DataFrame) (h : dfOk df = true) :
    ∃ recs, df_to_records df = .ok recs ∧
      containsBad (recordsVal recs) = false := by
  obtain ⟨hcol, hidx, hcols⟩ := dfOk_parts df h
  refine ⟨_, df_to_records_of_no_collision df hcol, ?_⟩
  unfold recordsVal
  simp only [containsBad]
  apply containsBadList_of_forall
  intro x hx
  obtain ⟨rec, hrec, he⟩ := List.mem_map.mp hx
  cases he
  obtain ⟨i, _, he2⟩ := List.mem_map.mp hrec
  cases he2
  simp only [containsBad]
  exact containsBad_rowRecord (promotedCols df) i
    (promotedCols_clean df hidx hcols)


theorem financialsRecords_ok :
    ∀ (l : List (String × DataFrame)),
      (∀ sd ∈ l, dfOk sd.2 = true) →
      ∃ out, financialsRecords l = .ok out ∧ containsBadDict out = false
  | [], _ => ⟨[], rfl, rfl⟩
  | sd :: l, h => by
      obtain ⟨recs, hrecs, hclean⟩ :=
        dfOk_records sd.2 (h sd (List.mem_cons_self sd l))
      obtain ⟨out, hout, houtc⟩ := financialsRecords_ok l
        (fun sd2 hm => h sd2 (List.mem_cons_of_mem sd hm))
      refine ⟨(sd.1, recordsVal recs) :: out, ?_, ?_⟩
      · simp only [financialsRecords]
        rw [hrecs, hout]
        rfl
      · simp only [containsBadDict, Bool.or_eq_false_iff]
        exact ⟨hclean, houtc⟩

theorem dataPayload_ok (p : Provider) (d : Int)
    (q : PyVal) (hq : p.quote = .ok q) (hqc : containsBad q = false)
    (hdf : DataFrame) (hh : p.history d = .ok hdf) (hho : dfOk hdf = true)
    (adf : DataFrame) (ha : p.actions = .ok adf) (hao : dfOk adf = true)
    (fl : List (String × DataFrame)) (hf : p.financials = .ok fl)
    (hfo : ∀ sd ∈ fl, dfOk sd.2 = true)
    (rdf : DataFrame) (hr : p.recommendations = .ok rdf)
    (hro : dfOk rdf = true) :
    ∃ body, dataPayload p d = .ok body := by
  obtain ⟨hrecs, hre, hrc⟩ := dfOk_records hdf hho
  obtain ⟨arecs, hae, hac⟩ := dfOk_records adf hao
  obtain ⟨finout, hfin, hfc⟩ := financialsRecords_ok fl hfo
  obtain ⟨rrecs, hrre, hrrc⟩ := dfOk_records rdf hro
  have hclean : containsBad (PyVal.vDict
      [("quote", q),
       ("history", recordsVal hrecs),
       ("actions", recordsVal arecs),
       ("financials", PyVal.vDict finout),
       ("recommendations", recordsVal rrecs)]) = false := by
    simp only [containsBad, containsBadDict, Bool.or_eq_false_iff]
    exact ⟨hqc, hrc, hac, hfc, hrrc, trivial⟩
  obtain ⟨body, hbody⟩ := dumps_ok_of_clean _ hclean
  refine ⟨body, ?_⟩
  unfold dataPayload
  rw [hq, hh, ha, hf, hr]
  simp only [Bind.bind, Except.bind]
  rw [hre, hae, hfin, hrre]
  exact hbody

theorem df_to_records_ok_inv (df : DataFrame)
    (recs : List (List (String × PyVal)))
    (h : df_to_records df = .ok recs) :
    df.cols.any (fun c => c.1 == promotedLabel df) = false ∧
    recs = (List.range df.indexVals.length).map
      (fun i => rowRecord (promotedCols df) i) := by
  cases hc : df.cols.any (fun c => c.1 == promotedLabel df) with
  | true =>
      unfold df_to_records at h
      simp only [hc, if_true] at h
      exact absurd h (by simp)
  | false =>
      rw [df_to_records_of_no_collision df hc] at h
      cases h
      exact ⟨rfl, rfl⟩

/-- C1: for every tabular result, any date or datetime value — a row
index value, a column label, or a value embedded anywhere in the
records — appears in the output of serializing `df_to_records` with the
`DateTimeEncoder` only as its ISO-8601 string: the serialized tree
contains no raw date value, and the encoder maps every date and
datetime to exactly its `isoformat()` string. -/
theorem c1_dates_iso_in_output (df : DataFrame)
    (recs : List (List (String × PyVal))) (out : PyVal)
    (h1 : df_to_records df = .ok recs)
    (h2 : dumps (recordsVal recs) = .ok out) :
    hasDate out = false ∧
    (∀ s, dumps (PyVal.vDate s) = .ok (PyVal.vStr s)) ∧
    (∀ s, dumps (PyVal.vDatetime s) = .ok (PyVal.vStr s)) :=
  ⟨dumps_noDate _ out h2, fun _ => rfl, fun _ => rfl⟩

theorem c1_dates_iso_in_output_witness :
    hasDate exampleOut = false ∧
    (∀ s, dumps (PyVal.vDate s) = .ok (PyVal.vStr s)) ∧
    (∀ s, dumps (PyVal.vDatetime s) = .ok (PyVal.vStr s)) :=
  c1_dates_iso_in_output exampleDf exampleRecs exampleOut rfl rfl

/-- C9: serializing with the `DateTimeEncoder` fails if and only if the
structure contains a value that is neither a JSON primitive, a mapping,
a sequence, nor a date/datetime; date and datetime values themselves
never cause failure — they are substituted with their ISO-8601 string
form. -/
theorem c9_dumps_failure_iff (v : PyVal) :
    ((dumps v).isOk = true ↔ containsBad v = false) ∧
    (∀ s, dumps (PyVal.vDate s) = .ok (PyVal.vStr s)) ∧
    (∀ s, dumps (PyVal.vDatetime s) = .ok (PyVal.vStr s)) := by
  refine ⟨?_, fun _ => rfl, fun _ => rfl⟩
  rw [dumps_isOk v]
  cases containsBad v <;> simp

/-- C3: whenever the `days` query parameter is present but not parseable
as an integer, `GetMowiHistory` answers 400 with exactly the body
produced from the message `Parameter 'days' must be an integer.` -/
theorem c3_history_bad_days_400 (p : Provider)
    (params : List (String × String)) (s : String)
    (h1 : paramsGet params "days" = some s) (h2 : pyInt s = none) :
    GetMowiHistory p params = badRequestDays ∧
    badRequestDays =
      { status := 400,
        body := PyVal.vDict
          [("error", PyVal.vStr "Parameter 'days' must be an integer.")],
        mimetype := "application/json" } := by
  have hd : daysParse params = .error
      (.valueError ("invalid literal for int() with base 10: " ++ s)) := by
    simp [daysParse, h1, h2]
  constructor
  · unfold GetMowiHistory
    rw [hd]
  · rfl

theorem c3_history_bad_days_400_witness :
    GetMowiHistory exampleProviderOk [("days", "abc")] = badRequestDays ∧
    badRequestDays =
      { status := 400,
        body := PyVal.vDict
          [("error", PyVal.vStr "Parameter 'days' must be an integer.")],
        mimetype := "application/json" } :=
  c3_history_bad_days_400 exampleProviderOk [("days", "abc")] "abc" rfl rfl

/-- C7: `get_mowi_history` queries the date range from `today - days`
to `today`, and when the arguments are unspecified it defaults to
`days = 30` (and daily interval). -/
theorem c7_history_range_default (today days : Int) (interval : String) :
    (get_mowi_history today days interval).start = today - days ∧
    (get_mowi_history today days interval).stop = today ∧
    get_mowi_history today =
      { start := today - 30, stop := today, interval := "1d" } :=
  ⟨rfl, rfl, rfl⟩

/-- C10: a negative `days` value passes `GetMowiHistory` without any
parameter error — `int` parsing succeeds, no sign check exists, the
handler proceeds to the fetch stage with that value, and
`get_mowi_history` then uses a start date strictly later than its end
date. -/
theorem c10_negative_days_accepted (p : Provider) (s : String) (d : Int)
    (today : Int) (h1 : pyInt s = some d) (h2 : d < 0) :
    daysParse [("days", s)] = .ok d ∧
    GetMowiHistory p [("days", s)] = historyStage p d ∧
    (get_mowi_history today d).stop < (get_mowi_history today d).start := by
  have hd : daysParse [("days", s)] = .ok d := by
    simp [daysParse, paramsGet, List.find?, h1]
  refine ⟨hd, ?_, ?_⟩
  · unfold GetMowiHistory
    rw [hd]
  · simp only [get_mowi_history]
    omega

theorem c10_negative_days_accepted_witness :
    daysParse [("days", "-5")] = .ok (-5) ∧
    GetMowiHistory exampleProviderOk [("days", "-5")] =
      historyStage exampleProviderOk (-5) ∧
    (get_mowi_history 738000 (-5)).stop <
      (get_mowi_history 738000 (-5)).start :=
  c10_negative_days_accepted exampleProviderOk "-5" (-5) 738000 rfl
    (by decide)

/-- C4: for every well-formed tabular result, `df_to_records` succeeds
and returns one record per row: the sequence has exactly as many records
as the table has rows, in the table's row order (it equals the row-major
peeling of the renamed columns), and an empty table yields the empty
sequence rather than an error. -/
theorem c4_records_length_order (df : DataFrame)
    (h : wellFormed df = true) :
    ∃ recs, df_to_records df = .ok recs ∧
      recs.length = df.indexVals.length ∧
      recs = rowsToRecords df.indexVals.length (promotedCols df) ∧
      (df.indexVals = [] → recs = []) := by
  have hcol : df.cols.any (fun c => c.1 == promotedLabel df) = false := by
    unfold wellFormed at h
    simp only [Bool.and_eq_true, Bool.not_eq_true'] at h
    exact h.2
  refine ⟨_, df_to_records_of_no_collision df hcol, ?_, ?_, ?_⟩
  · rw [List.length_map, List.length_range]
  · exact range_map_rowRecord _ _
  · intro he
    simp [he]

theorem c4_records_length_order_witness :
    ∃ recs, df_to_records exampleDf = .ok recs ∧
      recs.length = exampleDf.indexVals.length ∧
      recs = rowsToRecords exampleDf.indexVals.length
        (promotedCols exampleDf) ∧
      (exampleDf.indexVals = [] → recs = []) :=
  c4_records_length_order exampleDf rfl

/-- C5 as stated is false: when a data-column label renders to the same
string as the promoted index label, `to_dict` overwrites the
index-derived field (last write wins). In `exampleCollisionDf` the
single row's index value is the string `row0`, yet the only emitted
record is a one-field dict holding the data column's value 99, so the
record does not contain the row-index-derived value. -/
theorem c5_index_field_counterexample :
    df_to_records exampleCollisionDf =
      .ok [[("2020-01-01", PyVal.vInt 99)]] ∧
    exampleCollisionDf.indexVals = [PyVal.vStr "row0"] ∧
    recordLookup [("2020-01-01", PyVal.vInt 99)] "2020-01-01" =
      some (PyVal.vInt 99) ∧
    PyVal.vInt 99 ≠ PyVal.vStr "row0" :=
  ⟨rfl, rfl, rfl, fun h => PyVal.noConfusion h⟩

/-- C5, amended: `df_to_records` promotes the row index to a named
column first — the promoted field is the first field of every record —
renders date/datetime column labels as their ISO-8601 strings and all
other labels as their plain string form, and, provided no data-column
label renders to the same string as the promoted index label, every
emitted record carries the row's index value in that first field
(otherwise the colliding column's value overwrites it, last write
wins). -/
theorem c5_promote_rename_amended (df : DataFrame)
    (h : wellFormed df = true) (hnc : noRenderCollision df = true) :
    ∃ recs, df_to_records df = .ok recs ∧
      (∀ s, renderLabel (Label.date s) = s) ∧
      (∀ s, renderLabel (Label.other s) = s) ∧
      ∀ i (hi : i < recs.length),
        (∃ rest, recs.get ⟨i, hi⟩ =
          (renderLabel (promotedLabel df),
            df.indexVals.getD i PyVal.vNone) :: rest) ∧
        ∀ x, x ∈ (recs.get ⟨i, hi⟩).map Prod.fst ↔
          x ∈ renderedLabels df := by
  have hcol : df.cols.any (fun c => c.1 == promotedLabel df) = false := by
    unfold wellFormed at h
    simp only [Bool.and_eq_true, Bool.not_eq_true'] at h
    exact h.2
  refine ⟨_, df_to_records_of_no_collision df hcol, fun _ => rfl,
    fun _ => rfl, ?_⟩
  intro i hi
  have hget : ((List.range df.indexVals.length).map
      (fun i => rowRecord (promotedCols df) i)).get ⟨i, hi⟩ =
      rowRecord (promotedCols df)
        ((List.range df.indexVals.length).get
          ⟨i, by simpa using hi⟩) := by
    rw [List.get_map]
  have hrange : (List.range df.indexVals.length).get
      ⟨i, by simpa using hi⟩ = i := by
    simp [List.get_eq_getElem]
  rw [hget, hrange]
  constructor
  · unfold rowRecord promotedCols
    rw [List.map_cons, List.map_cons]
    obtain ⟨w, rest, hsh, hval⟩ := mkDict_cons_head
      (renderLabel (promotedLabel df)) (df.indexVals.getD i PyVal.vNone)
      ((df.cols.map (fun c => (renderLabel c.1, c.2))).map
        (fun c => (c.1, c.2.getD i PyVal.vNone)))
    rw [hsh]
    have hw : w = df.indexVals.getD i PyVal.vNone := by
      apply hval
      intro kv hm
      rw [List.map_map] at hm
      obtain ⟨c, hc, he⟩ := List.mem_map.mp hm
      cases he
      unfold noRenderCollision at hnc
      rw [List.all_eq_true] at hnc
      have := hnc c hc
      simp only [Bool.not_eq_true', beq_eq_false_iff_ne, ne_eq] at this
      exact this
    rw [hw]
    exact ⟨rest, rfl⟩
  · intro x
    rw [keys_rowRecord]
    rfl

theorem c5_promote_rename_amended_witness :
    ∃ recs, df_to_records exampleDf = .ok recs ∧
      (∀ s, renderLabel (Label.date s) = s) ∧
      (∀ s, renderLabel (Label.other s) = s) ∧
      ∀ i (hi : i < recs.length),
        (∃ rest, recs.get ⟨i, hi⟩ =
          (renderLabel (promotedLabel exampleDf),
            exampleDf.indexVals.getD i PyVal.vNone) :: rest) ∧
        ∀ x, x ∈ (recs.get ⟨i, hi⟩).map Prod.fst ↔
          x ∈ renderedLabels exampleDf :=
  c5_promote_rename_amended exampleDf rfl rfl

/-- C6: serializing the records of any tabular result yields a JSON
array with one object per record in which, for every row, the set of
field names equals the string-rendered column labels of the table plus
the promoted index field. -/
theorem c6_roundtrip_field_sets (df : DataFrame)
    (recs : List (List (String × PyVal))) (out : PyVal)
    (h1 : df_to_records df = .ok recs)
    (h2 : dumps (recordsVal recs) = .ok out) :
    ∃ l, out = PyVal.vList l ∧ l.length = recs.length ∧
      ∀ r ∈ l, ∃ kvs, r = PyVal.vDict kvs ∧
        ∀ x, x ∈ kvs.map Prod.fst ↔ x ∈ renderedLabels df := by
  obtain ⟨hcol, hrecs⟩ := df_to_records_ok_inv df recs h1
  obtain ⟨ys, hout, hdl⟩ := dumps_vList_inv _ _ h2
  obtain ⟨hlen, hmem⟩ := dumpsList_records recs ys hdl
  refine ⟨ys, hout, hlen, ?_⟩
  intro r hr
  obtain ⟨kvs, rec, hrec, hre, hkeys⟩ := hmem r hr
  refine ⟨kvs, hre, ?_⟩
  intro x
  rw [hkeys]
  rw [hrecs] at hrec
  obtain ⟨i, _, he⟩ := List.mem_map.mp hrec
  cases he
  rw [keys_rowRecord]
  rfl

theorem c6_roundtrip_field_sets_witness :
    ∃ l, exampleOut = PyVal.vList l ∧ l.length = exampleRecs.length ∧
      ∀ r ∈ l, ∃ kvs, r = PyVal.vDict kvs ∧
        ∀ x, x ∈ kvs.map Prod.fst ↔ x ∈ renderedLabels exampleDf :=
  c6_roundtrip_field_sets exampleDf exampleRecs exampleOut rfl rfl

/-- C8: when the `days` query parameter is absent or not parseable as
an integer, `GetMowiData` silently falls back to the default
`days = 30` — the response is identical to the one for a request with
no parameters — and answers 200 when the five provider calls succeed
with contract-conforming data. -/
theorem c8_data_lenient_days (p : Provider)
    (params : List (String × String))
    (hdays : paramsGet params "days" = none ∨
      ∃ s, paramsGet params "days" = some s ∧ pyInt s = none)
    (q : PyVal) (hq : p.quote = .ok q) (hqc : containsBad q = false)
    (hdf : DataFrame) (hh : p.history 30 = .ok hdf) (hho : dfOk hdf = true)
    (adf : DataFrame) (ha : p.actions = .ok adf) (hao : dfOk adf = true)
    (fl : List (String × DataFrame)) (hf : p.financials = .ok fl)
    (hfo : ∀ sd ∈ fl, dfOk sd.2 = true)
    (rdf : DataFrame) (hr : p.recommendations = .ok rdf)
    (hro : dfOk rdf = true) :
    dataDays params = 30 ∧
    GetMowiData p params = GetMowiData p [] ∧
    (GetMowiData p params).status = 200 := by
  have h30 : dataDays params = 30 := by
    cases hdays with
    | inl hn => simp [dataDays, hn]
    | inr he =>
        obtain ⟨s, hs, hp⟩ := he
        by_cases hse : s == ""
        · simp [dataDays, hs, hse]
        · simp [dataDays, hs, hse, hp]
  obtain ⟨body, hbody⟩ := dataPayload_ok p 30 q hq hqc hdf hh hho adf ha
    hao fl hf hfo rdf hr hro
  have hresp : GetMowiData p params = ok200 body := by
    unfold GetMowiData
    rw [h30, hbody]
  refine ⟨h30, ?_, ?_⟩
  · rw [hresp]
    unfold GetMowiData
    have h30e : dataDays [] = 30 := rfl
    rw [h30e, hbody]
  · rw [hresp]
    rfl

theorem c8_data_lenient_days_witness :
    dataDays [("days", "abc")] = 30 ∧
    GetMowiData exampleProviderOk [("days", "abc")] =
      GetMowiData exampleProviderOk [] ∧
    (GetMowiData exampleProviderOk [("days", "abc")]).status = 200 :=
  c8_data_lenient_days exampleProviderOk [("days", "abc")]
    (Or.inr ⟨"abc", rfl, rfl⟩)
    exampleQuote rfl rfl
    exampleDf rfl rfl
    exampleEmptyDf rfl rfl
    [("income_statement", exampleEmptyDf)] rfl
    (by
      intro sd hm
      cases hm with
      | head => rfl
      | tail _ hm2 => cases hm2)
    exampleEmptyDf rfl rfl

/-- C2 as stated is false: in `GetMowiHistory` the `except ValueError`
clause precedes `except Exception`, so a provider exception that is a
`ValueError` is answered with the 400 days-parameter response, not with
a 500 error envelope. Here the provider's history call raises
`ValueError` with message `boom`, yet the handler returns status 400
with the days message. -/
theorem c2_provider_valueerror_counterexample :
    exampleProviderHistErr.history 30 = .error (PyExc.valueError "boom") ∧
    GetMowiHistory exampleProviderHistErr [] = badRequestDays ∧
    (GetMowiHistory exampleProviderHistErr []).status = 400 ∧
    (400 : Nat) ≠ 500 :=
  ⟨rfl, rfl, rfl, by decide⟩

/-- C2, amended: when a provider call raises, every endpoint answers
500 with the envelope holding the exception's message — except that in
`GetMowiHistory` an exception that is a `ValueError` is caught by the
days-parameter clause and answered 400 with the days message. -/
theorem c2_provider_exception_amended (p : Provider) (e : PyExc)
    (params : List (String × String)) :
    (p.quote = .error e → GetMowiQuote p = err500 e.message) ∧
    (p.quote = .error e → GetMowiData p params = err500 e.message) ∧
    (∀ q, p.quote = .ok q → p.history (dataDays params) = .error e →
      GetMowiData p params = err500 e.message) ∧
    (∀ q hdf, p.quote = .ok q → p.history (dataDays params) = .ok hdf →
      p.actions = .error e → GetMowiData p params = err500 e.message) ∧
    (∀ q hdf adf, p.quote = .ok q →
      p.history (dataDays params) = .ok hdf → p.actions = .ok adf →
      p.financials = .error e → GetMowiData p params = err500 e.message) ∧
    (∀ q hdf adf fl, p.quote = .ok q →
      p.history (dataDays params) = .ok hdf → p.actions = .ok adf →
      p.financials = .ok fl → p.recommendations = .error e →
      GetMowiData p params = err500 e.message) ∧
    (p.actions = .error e → GetMowiActions p = err500 e.message) ∧
    (p.financials = .error e → GetMowiFinancials p = err500 e.message) ∧
    (p.recommendations = .error e →
      GetMowiRecommendations p = err500 e.message) ∧
    (∀ d m, daysParse params = .ok d →
      p.history d = .error (PyExc.otherError m) →
      GetMowiHistory p params = err500 m) ∧
    (∀ d m, daysParse params = .ok d →
      p.history d = .error (PyExc.valueError m) →
      GetMowiHistory p params = badRequestDays) := by
  refine ⟨?_, ?_, ?_, ?_, ?_, ?_, ?_, ?_, ?_, ?_, ?_⟩
  · intro hq
    unfold GetMowiQuote
    simp [hq, Bind.bind, Except.bind]
  · intro hq
    unfold GetMowiData dataPayload
    rw [hq]
    simp [Bind.bind, Except.bind]
  · intro q hq hh
    unfold GetMowiData dataPayload
    rw [hq, hh]
    simp [Bind.bind, Except.bind]
  · intro q hdf hq hh ha
    unfold GetMowiData dataPayload
    rw [hq, hh, ha]
    simp [Bind.bind, Except.bind]
  · intro q hdf adf hq hh ha hf
    unfold GetMowiData dataPayload
    rw [hq, hh, ha, hf]
    simp [Bind.bind, Except.bind]
  · intro q hdf adf fl hq hh ha hf hr
    unfold GetMowiData dataPayload
    rw [hq, hh, ha, hf, hr]
    simp [Bind.bind, Except.bind]
  · intro ha
    unfold GetMowiActions
    simp [ha, Bind.bind, Except.bind]
  · intro hf
    unfold GetMowiFinancials
    simp [hf, Bind.bind, Except.bind]
  · intro hr
    unfold GetMowiRecommendations
    simp [hr, Bind.bind, Except.bind]
  · intro d m hd hh
    unfold GetMowiHistory historyStage
    simp [hd, hh, Bind.bind, Except.bind]
  · intro d m hd hh
    unfold GetMowiHistory historyStage
    simp [hd, hh, Bind.bind, Except.bind]

theorem c2_provider_exception_amended_witness :
    GetMowiQuote exampleProviderQuoteErr = err500 "boom" ∧
    GetMowiActions exampleProviderActErr = err500 "down" ∧
    GetMowiHistory exampleProviderHistErr [] = badRequestDays :=
  ⟨(c2_provider_exception_amended exampleProviderQuoteErr
      (PyExc.otherError "boom") []).1 rfl,
   (c2_provider_exception_amended exampleProviderActErr
      (PyExc.otherError "down") []).2.2.2.2.2.2.1 rfl,
   (c2_provider_exception_amended exampleProviderHistErr
      (PyExc.valueError "boom") []).2.2.2.2.2.2.2.2.2.2 30 "boom" rfl rfl⟩
